import Mathlib

/-!
Shallow embedding of `src/query_iinact.py` (IINACT websocket DPS viewer).

Modelling conventions:
* JSON / Python values are the inductive `PyVal`; Python distinguishes
  `int` and `float` (and `bool` is a subclass of `int`), so those are
  separate constructors.  Floats are modelled as exact rationals.
* Python dicts are insertion-ordered association lists with (in any
  actually constructible dict) distinct keys; lookup is first-match.
* Operations that would raise an uncaught exception in Python are
  modelled by an explicit `crashed` flag (the process terminates).
* `str()` on a float is approximated by the rational's rendering, and
  `repr` of a string ignores Python's quote-selection and escaping
  rules; no theorem below depends on either corner.
-/

/-- A JSON value as decoded by Python's `json.loads` (plus `str`, since
the script also manipulates plain strings). -/
inductive PyVal where
  | none
  | bool (b : Bool)
  | int (n : ℤ)
  | float (q : ℚ)
  | str (s : String)
  | list (xs : List PyVal)
  | dict (fields : List (String × PyVal))

/-- Python's `str.join` on a list of strings. -/
def joinSep (sep : String) : List String → String
  | [] => ""
  | [x] => x
  | x :: xs => x ++ sep ++ joinSep sep xs

/-- Python's `str()` on a float, approximated (see module comment). -/
def pyFloatStr (q : ℚ) : String := toString q

mutual

/-- Python's `repr` on a value (string quoting/escaping approximated). -/
def pyRepr : PyVal → String
  | .none => "None"
  | .bool b => if b then "True" else "False"
  | .int n => toString n
  | .float q => pyFloatStr q
  | .str s => "\x27" ++ s ++ "\x27"
  | .list xs => "[" ++ pyReprJoin xs ++ "]"
  | .dict fs => "\x7b" ++ pyReprFieldsJoin fs ++ "\x7d"

/-- Elements of a list, `repr`-ed and joined with `", "`. -/
def pyReprJoin : List PyVal → String
  | [] => ""
  | [x] => pyRepr x
  | x :: xs => pyRepr x ++ ", " ++ pyReprJoin xs

/-- Entries of a dict, `repr`-ed and joined with `", "`. -/
def pyReprFieldsJoin : List (String × PyVal) → String
  | [] => ""
  | [kv] => "\x27" ++ kv.1 ++ "\x27: " ++ pyRepr kv.2
  | kv :: rest =>
      "\x27" ++ kv.1 ++ "\x27: " ++ pyRepr kv.2 ++ ", " ++ pyReprFieldsJoin rest

end

/-- Python `str(v)`: like `repr` except that a top-level string is
returned unquoted. -/
def pyStr : PyVal → String
  | .str s => s
  | v => pyRepr v

/-- Characters kept by `NUM_RE.sub('', s)`: the regexp deletes every
character outside `[0-9.+-]`. -/
def keepNumChar (c : Char) : Bool := c.isDigit || c == '.' || c == '+' || c == '-'

/-- `NUM_RE.sub('', s)` from the source. -/
def stripNum (s : String) : String := String.mk (s.toList.filter keepNumChar)

/-- Value of a digit string (most significant first). -/
def digitsVal (cs : List Char) : ℕ := cs.foldl (fun a c => a * 10 + (c.toNat - 48)) 0

/-- Python `float()` on an unsigned literal made of `[0-9.]` characters:
`digits`, `digits.digits`, `digits.` or `.digits` (at least one digit). -/
def pyParseUnsigned (cs : List Char) : Option ℚ :=
  let intPart := cs.takeWhile Char.isDigit
  let rest := cs.dropWhile Char.isDigit
  match rest with
  | [] => if intPart.isEmpty then Option.none else some (mkRat (digitsVal intPart) 1)
  | '.' :: frac =>
      if frac.all Char.isDigit && (!intPart.isEmpty || !frac.isEmpty) then
        some (mkRat (digitsVal intPart * 10 ^ frac.length + digitsVal frac) (10 ^ frac.length))
      else Option.none
  | _ => Option.none

/-- Python `float()` on a string whose characters all come from
`[0-9.+-]` (the only strings the script ever parses): an optional single
leading sign followed by an unsigned literal. -/
def pyParseFloat (cs : List Char) : Option ℚ :=
  match cs with
  | '+' :: rest => pyParseUnsigned rest
  | '-' :: rest => (pyParseUnsigned rest).map Neg.neg
  | _ => pyParseUnsigned cs

/-- `to_float` from the source, as a TOTAL function into ℚ: `None →
0.0`; ints and floats cast directly (a Python `bool` is an `int`);
anything else is `str()`-ed, stripped by `NUM_RE`, and parsed, with
empty or unparseable input yielding `0.0`.  This is the in-double-range
restriction used as the sort key (where `float()` neither raises nor
overflows, it agrees with the faithful model `to_float_full` below —
see `to_float_full_agrees`); `to_float_full` carries the fallibility
and finiteness the source actually has. -/
def to_float : PyVal → ℚ
  | .none => 0
  | .bool b => if b then 1 else 0
  | .int n => (n : ℚ)
  | .float q => q
  | v =>
      let s := stripNum (pyStr v)
      if s.isEmpty then 0 else (pyParseFloat s.toList).getD 0

/-- The overflow threshold of an IEEE-754 double: the largest double is
`2^1024 - 2^971`, and round-half-even sends every magnitude of at least
`2^1024 - 2^970` to infinity. -/
def doubleMaxBound : ℕ := 2 ^ 1024 - 2 ^ 970

/-- Whether CPython `float(n)` on an int raises OverflowError: exactly
when the rounded magnitude leaves the double range. -/
def intOverflowsDouble (n : ℤ) : Bool := doubleMaxBound ≤ n.natAbs

/-- Whether CPython `float(s)` on a numeric string returns an infinity
(no exception): exactly when the string's exact value leaves the double
range, i.e. `doubleMaxBound ≤ |num| / den`. -/
def ratOverflowsDouble (q : ℚ) : Bool := doubleMaxBound * q.den ≤ q.num.natAbs

/-- The result of a CPython float conversion: a finite double (kept as
the exact pre-rounding rational — 53-bit rounding is not modelled, only
finiteness) or an infinity.  `float()` on a stripped `[0-9.+-]` string
cannot produce NaN. -/
inductive PyFloatVal where
  | finite (q : ℚ)
  | inf (neg : Bool)
deriving DecidableEq

/-- `to_float` with its fallibility and finiteness made explicit,
modelled from CPython `float` semantics (numeric conversion is a
capability the spec treats as given).  Line 16's `return float(s)` for
int/float input sits OUTSIDE the `try` (lines 18-21, catching only
`ValueError`), so an int beyond the double range raises an UNCAUGHT
OverflowError — `.error ()` here; `float()` on a stripped numeric
string beyond the double range returns an infinity without raising —
`.inf` here.  (A float input is returned unchanged by the source; json
`Infinity`/`NaN` literals, which CPython's decoder accepts, would pass
through non-finite, but `PyVal.float` carries only finite rationals, so
that route is outside this model — the int and string routes above
already exhibit both failure modes.) -/
def to_float_full : PyVal → Except Unit PyFloatVal
  | .none => .ok (.finite 0)
  | .bool b => .ok (.finite (if b then 1 else 0))
  | .int n => if intOverflowsDouble n then .error () else .ok (.finite (n : ℚ))
  | .float q => .ok (.finite q)
  | v =>
      let s := stripNum (pyStr v)
      if s.isEmpty then .ok (.finite 0)
      else
        match pyParseFloat s.toList with
        | some q =>
            if ratOverflowsDouble q then .ok (.inf (decide (q < 0)))
            else .ok (.finite q)
        | Option.none => .ok (.finite 0)

/-- `safe_get`'s exact pass for one candidate: Python `k in d` / `d[k]`
on a dict with distinct keys. -/
def lookupExact (d : List (String × PyVal)) (k : String) : Option PyVal :=
  (d.find? (fun kv => kv.1 == k)).map Prod.snd

/-- Python `s.lower()` (ASCII case folding, which covers every key the
script compares). -/
def pyLower (s : String) : String := String.mk (s.toList.map Char.toLower)

/-- `safe_get`'s case-insensitive pass for one candidate: the inner
`for kk in d.keys(): if kk.lower() == str(k).lower(): return d[kk]`. -/
def lookupCI (d : List (String × PyVal)) (k : String) : Option PyVal :=
  (d.find? (fun kv => pyLower kv.1 == pyLower k)).map Prod.snd

/-- `safe_get` from the source: for each candidate key in order, first
an exact lookup, then a case-insensitive scan of the dict's keys, before
moving on to the next candidate; the default if nothing ever matched. -/
def safe_get (d : List (String × PyVal)) (keys : List String) (default : PyVal) :
    PyVal :=
  match keys with
  | [] => default
  | k :: ks =>
      match lookupExact d k with
      | some v => v
      | Option.none =>
          match lookupCI d k with
          | some v => v
          | Option.none => safe_get d ks default

/-- Modelled from the spec: the two-pass lookup §4.3 describes — an
exact-match pass across ALL candidates in order, and only if that pass
fails, a case-insensitive pass across all candidates in order. -/
def spec_safe_get (d : List (String × PyVal)) (keys : List String) (default : PyVal) :
    PyVal :=
  match keys.findSome? (lookupExact d) with
  | some v => v
  | Option.none =>
      match keys.findSome? (lookupCI d) with
      | some v => v
      | Option.none => default

/-- Sort key of a combatant row (line 110): `to_float(r[2])`, the DPS
cell.  Rows built by the script always have 7 cells. -/
def rowKey (r : List PyVal) : ℚ := to_float (r.getD 2 .none)

/-- `rows.sort(key=lambda r: to_float(r[2]), reverse=True)`: Python's
sort is stable, and `reverse=True` preserves stability, so it is THE
stable descending sort — insertion sort with `rowKey b ≤ rowKey a`. -/
def rowsSortDesc (rows : List (List PyVal)) : List (List PyVal) :=
  List.insertionSort (fun a b => rowKey b ≤ rowKey a) rows

/-- Python `l[:n]` for an `int` n (negative n counts from the end). -/
def pySlice (n : ℤ) (l : List (List PyVal)) : List (List PyVal) :=
  if 0 ≤ n then l.take n.toNat else l.take (l.length - (-n).toNat)

/-- Lines 111-112: `if args.top: rows = rows[:args.top]` — an `int` is
truthy iff nonzero. -/
def applyTop (top : ℤ) (rows : List (List PyVal)) : List (List PyVal) :=
  if top = 0 then rows else pySlice top rows

/-- The command-line options (argparse, lines 46-51). -/
structure Args where
  ws : String
  once : Bool
  top : ℤ
  show_logline : Bool
  sniff : Bool
  raw_once : Bool

/-- The argparse defaults: what each option holds when not supplied. -/
def default_args : Args :=
  { ws := "ws://127.0.0.1:10501/ws", once := false, top := 8,
    show_logline := false, sniff := false, raw_once := false }

/-- Header list of the rendered table (line 116). -/
def main_headers : List String :=
  ["Name", "Job", "ENCDPS", "Damage", "Crit%", "DH%", "Deaths"]

/-- Python `s.ljust(w)`: left-justify, pad with spaces to width `w`. -/
def ljust (s : String) (w : ℕ) : String :=
  s ++ String.mk (List.replicate (w - s.length) ' ')

/-- Python `s[:n]` on a string. -/
def strSlice (s : String) (n : ℕ) : String := String.mk (s.toList.take n)

/-- The inner loop of `format_table`'s width pass on one row:
`for i, cell in enumerate(r): colw[i] = max(colw[i], len(str(cell)))`.
Entries of `colw` beyond the row's length are untouched.  (A row longer
than `colw` raises IndexError in Python; here the extra cells are
ignored — every theorem below restricts rows to the header width.) -/
def updateColw (colw : List ℕ) (r : List PyVal) : List ℕ :=
  colw.zipWith max (r.map (fun c => (pyStr c).length)) ++ colw.drop r.length

/-- `format_table`'s column widths: start from the header lengths, then
fold the width pass over the rows (lines 33-36). -/
def colWidths (headers : List String) (rows : List (List PyVal)) : List ℕ :=
  rows.foldl updateColw (headers.map String.length)

/-- One data line of `format_table` (line 41): cells indexed by header
position, `str()`-ed, left-justified to the column width, joined by
`" | "`. -/
def dataLine (colw : List ℕ) (headers : List String) (r : List PyVal) : String :=
  joinSep " | "
    ((List.range headers.length).map
      (fun i => ljust (pyStr (r.getD i (.str ""))) (colw.getD i 0)))

/-- The list of output lines of `format_table` (lines 37-41): header
line, dash separator line, one line per row. -/
def formatLines (rows : List (List PyVal)) (headers : List String) : List String :=
  joinSep " | " (List.zipWith ljust headers (colWidths headers rows)) ::
    joinSep "-+-" ((colWidths headers rows).map
      (fun w => String.mk (List.replicate w '-'))) ::
    rows.map (dataLine (colWidths headers rows) headers)

/-- `format_table` from the source (lines 32-42). -/
def format_table (rows : List (List PyVal)) (headers : List String) : String :=
  joinSep "\n" (formatLines rows headers)

/-- Modelled from the spec: column `i`'s width per §4.4 — the maximum of
the header label's length and every cell's string length in that column,
computed independently per column. -/
def spec_colWidth (headers : List String) (rows : List (List PyVal)) (i : ℕ) : ℕ :=
  (rows.map (fun r => (pyStr (r.getD i (.str ""))).length)).foldl max
    (headers.getD i "").length

/-- Modelled from the spec: the rendered table per §4.4 — header row,
separator row of repeated dashes joined with `"-+-"`, then one row per
record, cells left-justified to the column width and joined `" | "`. -/
def spec_format_table (rows : List (List PyVal)) (headers : List String) : String :=
  joinSep "\n"
    (joinSep " | " ((List.range headers.length).map
        (fun i => ljust (headers.getD i "") (spec_colWidth headers rows i))) ::
      joinSep "-+-" ((List.range headers.length).map
        (fun i => String.mk (List.replicate (spec_colWidth headers rows i) '-'))) ::
      rows.map (fun r =>
        joinSep " | " ((List.range headers.length).map
          (fun i => ljust (pyStr (r.getD i (.str ""))) (spec_colWidth headers rows i)))))

/-- Python truthiness of a JSON value. -/
def pyTruthy : PyVal → Bool
  | .none => false
  | .bool b => b
  | .int n => n != 0
  | .float q => q != 0
  | .str s => !s.isEmpty
  | .list xs => !xs.isEmpty
  | .dict fs => !fs.isEmpty

/-- `msg.get(key, {}) or {}` followed by use as a dict (lines 86, 97):
a missing or falsy value becomes the empty dict; a truthy non-dict value
is kept and makes the first dict operation on it raise — modelled as
`Except.error`. -/
def getOrEmptyDict (o : Option PyVal) : Except Unit (List (String × PyVal)) :=
  match o with
  | Option.none => .ok []
  | some v =>
      if pyTruthy v then
        match v with
        | .dict fs => .ok fs
        | _ => .error ()
      else .ok []

/-- One combatant's row (lines 103-109): tolerant field extraction with
the declared defaults, then
`[pname, job, pdps, dmg_p, crit, dh, deaths]`. -/
def combatantRow (pname : String) (stats : List (String × PyVal)) : List PyVal :=
  let pdps := safe_get stats ["encdps", "ENCDPS", "dps"] (.str "0")
  let crit := safe_get stats ["crithit%", "Crit%", "crithit"] (.str "")
  let dh := safe_get stats ["DirectHitPct", "DirectHit%", "DirectHit", "Direct%", "DH%"] (.str "")
  let deaths := safe_get stats ["deaths", "Deaths"] (.str "0")
  let job := safe_get stats ["Job", "job"] (.str "")
  let dmg_p := safe_get stats ["damage", "Damage"] (.str "0")
  [.str pname, job, pdps, dmg_p, crit, dh, deaths]

/-- The `for pname, stats in comb.items()` loop (lines 100-109).  A
combatant whose stats value is not a dict makes the iteration raise
(`stats.keys()` / `safe_get` on a non-dict), modelled as `.error`;
nothing is printed and the table is never reached. -/
def buildRows : List (String × PyVal) → Except Unit (List (List PyVal))
  | [] => .ok []
  | (pname, stats) :: rest =>
      match stats with
      | .dict fs => (buildRows rest).map (fun rs => combatantRow pname fs :: rs)
      | _ => .error ()

/-- The encounter header line (lines 87-92). -/
def encounterLine (enc : List (String × PyVal)) : String :=
  let zone := safe_get enc ["CurrentZoneName", "zone"] (.str "")
  let name := safe_get enc ["title", "Encounter"] (.str "")
  let dur := safe_get enc ["duration"] (.str "?")
  let dps := safe_get enc ["encdps", "ENCDPS", "DPS"] (.str "?")
  let dmg := safe_get enc ["damage", "damageTotal"] (.str "?")
  "\n=== Encounter: " ++ pyStr name ++ "  Zone: " ++ pyStr zone ++
    "  Duration: " ++ pyStr dur ++ "  ENCDPS: " ++ pyStr dps ++
    "  Damage: " ++ pyStr dmg ++ " ==="

/-- Python `sorted(list(keys))`: lexicographic string sort. -/
def sortStrings (ss : List String) : List String :=
  List.insertionSort (fun a b => a ≤ b) ss

/-- Python `repr` of a list of strings, as `print` shows it. -/
def pyReprStrList (ss : List String) : String :=
  "[" ++ joinSep ", " (ss.map (fun s => "\x27" ++ s ++ "\x27")) ++ "]"

/-- Result of handling one inbound message: the lines printed, whether
the loop breaks, and whether an uncaught exception terminated the
process. -/
structure StepOut where
  out : List String
  stop : Bool
  crashed : Bool
deriving DecidableEq

/-- `first_stats_keys` (lines 99-102): the sorted key list of the first
combatant's stats, when there is a first combatant.  Only consulted
after `buildRows` succeeded, so the stats are dicts. -/
def firstStatsKeys (comb : List (String × PyVal)) : Option (List String) :=
  comb.head?.map (fun kv =>
    match kv.2 with
    | .dict fs => sortStrings (fs.map Prod.fst)
    | _ => [])

/-- The `CombatData` branch (lines 82-120).  `dumps` abstracts
`json.dumps(·, indent=2)`, an external capability only used by
`--raw-once`. -/
def processCombat (dumps : PyVal → String) (args : Args)
    (msg : List (String × PyVal)) : StepOut :=
  if args.raw_once then ⟨[strSlice (dumps (.dict msg)) 20000], true, false⟩
  else
    match getOrEmptyDict (lookupExact msg "Encounter") with
    | .error _ => ⟨[], false, true⟩
    | .ok enc =>
        let headOut := encounterLine enc ::
          (if args.sniff then
            ["Encounter keys: " ++ pyReprStrList (sortStrings (enc.map Prod.fst))]
          else [])
        match getOrEmptyDict (lookupExact msg "Combatant") with
        | .error _ => ⟨headOut, false, true⟩
        | .ok comb =>
            match buildRows comb with
            | .error _ => ⟨headOut, false, true⟩
            | .ok rows0 =>
                let rows := applyTop args.top (rowsSortDesc rows0)
                match (if args.sniff then firstStatsKeys comb else Option.none) with
                | some ks =>
                    ⟨headOut ++ ["Combatant keys (example): " ++ pyReprStrList ks],
                      true, false⟩
                | Option.none =>
                    ⟨headOut ++ [format_table rows main_headers], args.once, false⟩

/-- The `LogLine` branch (lines 122-124):
`line = msg.get("line") or msg.get("rawLine") or ""`, printed truncated
to 160 characters with a `"..."` marker.  A truthy non-string `line`
raises on `line[:160] + ...`. -/
def logLineOut (msg : List (String × PyVal)) : StepOut :=
  let l1 := (lookupExact msg "line").getD .none
  let line := if pyTruthy l1 then l1 else
    let l2 := (lookupExact msg "rawLine").getD .none
    if pyTruthy l2 then l2 else .str ""
  match line with
  | .str s =>
      ⟨["[LogLine] " ++ (strSlice s 160 ++ (if 160 < s.length then "..." else ""))],
        false, false⟩
  | _ => ⟨[], false, true⟩

/-- One inbound item seen by the loop: a receive timeout, a text frame
JSON decoding rejects, or a decoded JSON value (decoding itself is an
external capability). -/
inductive Inbound where
  | timeout
  | notJson (raw : String)
  | json (v : PyVal)

/-- One iteration of the receive loop (lines 69-126) on one inbound
item. -/
def handleMsg (dumps : PyVal → String) (args : Args) (m : Inbound) : StepOut :=
  match m with
  | .timeout => ⟨["No data for 60s... still connected."], false, false⟩
  | .notJson raw => ⟨["[Non-JSON] " ++ strSlice raw 200], false, false⟩
  | .json v =>
      match v with
      | .dict msg =>
          match lookupExact msg "type" with
          | some (.str "CombatData") => processCombat dumps args msg
          | some (.str "LogLine") =>
              if args.show_logline then logLineOut msg else ⟨[], false, false⟩
          | _ => ⟨[], false, false⟩
      | _ => ⟨[], false, true⟩

/-- Cumulative result of running the loop over a list of inbound items. -/
structure LoopResult where
  out : List String
  crashed : Bool
deriving DecidableEq

/-- The receive loop run over a finite inbound sequence: stops early on
break or crash, otherwise concatenates each iteration's output. -/
def runLoop (dumps : PyVal → String) (args : Args) : List Inbound → LoopResult
  | [] => ⟨[], false⟩
  | m :: ms =>
      let r := handleMsg dumps args m
      if r.crashed then ⟨r.out, true⟩
      else if r.stop then ⟨r.out, false⟩
      else
        let rest := runLoop dumps args ms
        ⟨r.out ++ rest.out, rest.crashed⟩

/-- The fields of a dict value (the empty list on non-dicts; only used
under a hypothesis that the value IS a dict). -/
def dictFields : PyVal → List (String × PyVal)
  | .dict fs => fs
  | _ => []

/-- The spec §8 end-to-end example event: a `CombatData` snapshot with
two combatants. -/
def goodCombatEvent : PyVal :=
  .dict [("type", .str "CombatData"),
    ("Encounter", .dict [("title", .str "Training Dummy"), ("duration", .str "1:23"),
      ("encdps", .str "1500")]),
    ("Combatant", .dict [("Alice", .dict [("encdps", .str "900"), ("Job", .str "WHM")]),
      ("Bob", .dict [("ENCDPS", .str "1600"), ("job", .str "DRK")])])]

/-! ## Theorems -/

theorem stripNum_idem (s : String) : stripNum (stripNum s) = stripNum s := by
  simp [stripNum, String.toList, List.filter_filter]

theorem to_float_full_agrees :
    ∀ (v : PyVal) (q : ℚ), to_float_full v = .ok (.finite q) → to_float v = q := by
  have hbranch : ∀ (t : String) (q : ℚ),
      (if t.isEmpty then (Except.ok (PyFloatVal.finite 0) : Except Unit PyFloatVal)
        else match pyParseFloat t.toList with
          | some q2 =>
              if ratOverflowsDouble q2 then Except.ok (PyFloatVal.inf (decide (q2 < 0)))
              else Except.ok (PyFloatVal.finite q2)
          | Option.none => Except.ok (PyFloatVal.finite 0)) = .ok (.finite q) →
      (if t.isEmpty then (0 : ℚ) else (pyParseFloat t.toList).getD 0) = q := by
    intro t q h
    by_cases he : t.isEmpty
    · rw [if_pos he] at h ⊢
      exact PyFloatVal.finite.inj (Except.ok.inj h)
    · rw [if_neg he] at h ⊢
      cases hp : pyParseFloat t.toList with
      | none =>
          rw [hp] at h
          have h2 : (Except.ok (PyFloatVal.finite 0) : Except Unit PyFloatVal)
              = .ok (.finite q) := h
          exact PyFloatVal.finite.inj (Except.ok.inj h2)
      | some q2 =>
          rw [hp] at h
          have h2 : (if ratOverflowsDouble q2 then
                (Except.ok (PyFloatVal.inf (decide (q2 < 0))) : Except Unit PyFloatVal)
              else Except.ok (PyFloatVal.finite q2)) = .ok (.finite q) := h
          by_cases ho : ratOverflowsDouble q2
          · rw [if_pos ho] at h2
            exact PyFloatVal.noConfusion (Except.ok.inj h2)
          · rw [if_neg ho] at h2
            exact PyFloatVal.finite.inj (Except.ok.inj h2)
  intro v q h
  cases v with
  | none => exact PyFloatVal.finite.inj (Except.ok.inj h)
  | bool b => exact PyFloatVal.finite.inj (Except.ok.inj h)
  | int n =>
      have h2 : (if intOverflowsDouble n then (Except.error () : Except Unit PyFloatVal)
          else .ok (.finite (n : ℚ))) = .ok (.finite q) := h
      by_cases hn : intOverflowsDouble n
      · rw [if_pos hn] at h2
        exact Except.noConfusion h2
      · rw [if_neg hn] at h2
        exact PyFloatVal.finite.inj (Except.ok.inj h2)
  | float q2 => exact PyFloatVal.finite.inj (Except.ok.inj h)
  | str s => exact hbranch (stripNum (pyStr (.str s))) q h
  | list xs => exact hbranch (stripNum (pyStr (.list xs))) q h
  | dict fs => exact hbranch (stripNum (pyStr (.dict fs))) q h

set_option maxRecDepth 10000 in
/-- C2 counterexample: `to_float` is NOT finite-and-nonraising for every
input.  On the JSON-decodable integer `10^400`, line 16's `float(s)` —
which sits outside the `try`, whose `except` catches only `ValueError` —
raises an uncaught OverflowError (every int of magnitude at least
`2^1024 - 2^970` overflows the double range), so `to_float` raises; and
on the 401-digit numeric string `"10⋯0"`, the stripped parse overflows
the double range, so `float()` returns `inf` — a non-finite result. -/
theorem C2_counterexample :
    to_float_full (.int ((10 ^ 400 : ℕ) : ℤ)) = .error () ∧
    to_float_full (.str (String.mk ('1' :: List.replicate 400 '0'))) =
      .ok (.inf false) := by
  constructor
  · rfl
  · rfl

set_option maxRecDepth 10000 in
/-- C2 (amended): `to_float(None) = 0.0` and `to_float(7) = 7.0`; an int
within the double range and any (finite) float are cast directly;
string input is stripped of every character that is not a digit,
decimal point, plus or minus before parsing, the spec's examples hold,
and an empty or unparseable remainder yields `0.0`; whenever the
conversion succeeds with a finite value it equals the total rational
model `to_float`.  But `to_float` is not finite-and-nonraising on EVERY
input: an int beyond the double range raises an uncaught OverflowError,
and a numeric string beyond the double range yields a non-finite
infinity (see the counterexample). -/
theorem C2_to_float_amended :
    to_float_full .none = .ok (.finite 0) ∧
    to_float_full (.int 7) = .ok (.finite 7) ∧
    (∀ n : ℤ, n.natAbs < doubleMaxBound →
      to_float_full (.int n) = .ok (.finite (n : ℚ))) ∧
    (∀ q : ℚ, to_float_full (.float q) = .ok (.finite q)) ∧
    (∀ s : String, to_float_full (.str s) = to_float_full (.str (stripNum s))) ∧
    to_float_full (.str "12.5%") = .ok (.finite (25 / 2)) ∧
    to_float_full (.str "-3.2") = .ok (.finite (-16 / 5)) ∧
    to_float_full (.str "") = .ok (.finite 0) ∧
    to_float_full (.str "abc") = .ok (.finite 0) ∧
    to_float_full (.str "1,234.5%") = .ok (.finite (2469 / 2)) ∧
    (∀ (v : PyVal) (q : ℚ), to_float_full v = .ok (.finite q) → to_float v = q) := by
  refine ⟨rfl, rfl, ?_, fun q => rfl, ?_, ?_, ?_, rfl, rfl, ?_, to_float_full_agrees⟩
  · intro n hn
    have hov : intOverflowsDouble n = false := by
      simp only [intOverflowsDouble, decide_eq_false_iff_not]
      omega
    rw [show to_float_full (.int n) =
        (if intOverflowsDouble n then .error () else .ok (.finite (n : ℚ)))
        from rfl, hov]
    rfl
  · intro s
    show (if (stripNum s).isEmpty then (Except.ok (PyFloatVal.finite 0) : Except Unit PyFloatVal)
        else match pyParseFloat (stripNum s).toList with
          | some q2 =>
              if ratOverflowsDouble q2 then Except.ok (PyFloatVal.inf (decide (q2 < 0)))
              else Except.ok (PyFloatVal.finite q2)
          | Option.none => Except.ok (PyFloatVal.finite 0)) =
      (if (stripNum (stripNum s)).isEmpty then Except.ok (PyFloatVal.finite 0)
        else match pyParseFloat (stripNum (stripNum s)).toList with
          | some q2 =>
              if ratOverflowsDouble q2 then Except.ok (PyFloatVal.inf (decide (q2 < 0)))
              else Except.ok (PyFloatVal.finite q2)
          | Option.none => Except.ok (PyFloatVal.finite 0))
    rw [stripNum_idem]
  · rw [show to_float_full (.str "12.5%") = .ok (.finite (mkRat 125 10)) from rfl]
    norm_num [Rat.mkRat_eq_divInt, Rat.divInt_eq_div]
  · rw [show to_float_full (.str "-3.2") = .ok (.finite (-mkRat 32 10)) from rfl]
    norm_num [Rat.mkRat_eq_divInt, Rat.divInt_eq_div]
  · rw [show to_float_full (.str "1,234.5%") = .ok (.finite (mkRat 12345 10)) from rfl]
    norm_num [Rat.mkRat_eq_divInt, Rat.divInt_eq_div]

set_option maxRecDepth 10000 in
/-- C2 witness: the in-range int cast and the finite-agreement
conjuncts applied at concrete inputs, hypotheses discharged there. -/
theorem C2_to_float_witness :
    to_float_full (.int 5) = .ok (.finite (5 : ℚ)) ∧
    to_float (.str "12.5%") = 25 / 2 :=
  ⟨C2_to_float_amended.2.2.1 5 (by decide),
   C2_to_float_amended.2.2.2.2.2.2.2.2.2.2 (.str "12.5%") (25 / 2)
     C2_to_float_amended.2.2.2.2.2.1⟩

/-- C1 counterexample: with payload `{"ENCDPS": "5", "dps": "7"}` and
candidates `["encdps", "dps"]`, the later candidate `"dps"` matches a
payload key exactly, yet `safe_get` returns `"5"`, the value the FIRST
candidate reaches case-insensitively — not the exactly matched `"7"`
the claimed two-pass order would return. -/
theorem C1_counterexample :
    safe_get [("ENCDPS", .str "5"), ("dps", .str "7")] ["encdps", "dps"] (.str "0")
        = .str "5" ∧
    spec_safe_get [("ENCDPS", .str "5"), ("dps", .str "7")] ["encdps", "dps"] (.str "0")
        = .str "7" ∧
    (PyVal.str "5" = PyVal.str "7") = False := by
  refine ⟨rfl, rfl, eq_false fun h => ?_⟩
  injection h with h2
  exact absurd h2 (by decide)

/-- C1 (amended): `safe_get` considers candidates one at a time — for
each candidate in order it checks an exact key match and then a
case-insensitive match before moving to the next candidate, and returns
the first value found this way; an exact match on the first candidate
wins outright; the default is returned exactly when no candidate matches
either exactly or case-insensitively. -/
theorem C1_safe_get_per_candidate :
    (∀ (d : List (String × PyVal)) (keys : List String) (default : PyVal),
      safe_get d keys default =
        (keys.findSome?
          (fun k => (lookupExact d k).orElse (fun _ => lookupCI d k))).getD default) ∧
    safe_get [("ENCDPS", .str "5")] ["encdps"] (.str "0") = .str "5" ∧
    (∀ (d : List (String × PyVal)) (k : String) (ks : List String) (default v : PyVal),
      lookupExact d k = some v → safe_get d (k :: ks) default = v) ∧
    (∀ (d : List (String × PyVal)) (keys : List String) (default : PyVal),
      (∀ k ∈ keys, lookupExact d k = Option.none ∧ lookupCI d k = Option.none) →
      safe_get d keys default = default) := by
  have hmain : ∀ (d : List (String × PyVal)) (keys : List String) (default : PyVal),
      safe_get d keys default =
        (keys.findSome?
          (fun k => (lookupExact d k).orElse (fun _ => lookupCI d k))).getD default := by
    intro d keys default
    induction keys with
    | nil => rfl
    | cons k ks ih =>
        cases h1 : lookupExact d k with
        | some v => simp [safe_get, h1, List.findSome?, Option.orElse]
        | none =>
            cases h2 : lookupCI d k with
            | some v => simp [safe_get, h1, h2, List.findSome?, Option.orElse]
            | none => simp [safe_get, h1, h2, List.findSome?, Option.orElse, ih]
  refine ⟨hmain, rfl, ?_, ?_⟩
  · intro d k ks default v h
    simp [safe_get, h]
  · intro d keys default h
    induction keys with
    | nil => rfl
    | cons k ks ih =>
        have hk := h k (List.mem_cons_self k ks)
        simp [safe_get, hk.1, hk.2,
          ih (fun k2 hk2 => h k2 (List.mem_cons_of_mem _ hk2))]

/-- C1 witness: the amended characterisation applied at concrete inputs
— an exact first-candidate match, and the default when nothing matches. -/
theorem C1_safe_get_witness :
    safe_get [("x", .str "1")] ["x", "b"] (.str "0") = .str "1" ∧
    safe_get [("x", .str "1")] ["a", "b"] (.str "0") = .str "0" :=
  ⟨C1_safe_get_per_candidate.2.2.1 [("x", .str "1")] "x" ["b"] (.str "0") (.str "1") rfl,
   C1_safe_get_per_candidate.2.2.2 [("x", .str "1")] ["a", "b"] (.str "0")
     (by intro k hk; fin_cases hk <;> exact ⟨rfl, rfl⟩)⟩

theorem filter_key_orderedInsert (v : ℚ) (a : List PyVal) (l : List (List PyVal)) :
    (List.orderedInsert (fun x y => rowKey y ≤ rowKey x) a l).filter
        (fun r => decide (rowKey r = v)) =
      ((a :: l).filter (fun r => decide (rowKey r = v))) := by
  induction l with
  | nil => rfl
  | cons b l ih =>
      by_cases hab : rowKey b ≤ rowKey a
      · simp [List.orderedInsert, hab]
      · have hlt : rowKey a < rowKey b := not_le.mp hab
        simp only [List.orderedInsert, if_neg hab]
        by_cases hb : rowKey b = v
        · have ha : ¬rowKey a = v := by
            intro h2
            rw [h2, hb] at hlt
            exact lt_irrefl v hlt
          simp only [List.filter_cons, ih]
          simp [hb, ha]
        · simp only [List.filter_cons, ih]
          simp [hb]

theorem filter_key_rowsSortDesc (rows : List (List PyVal)) (v : ℚ) :
    (rowsSortDesc rows).filter (fun r => decide (rowKey r = v)) =
      rows.filter (fun r => decide (rowKey r = v)) := by
  induction rows with
  | nil => rfl
  | cons a rows ih =>
      show ((List.insertionSort _ rows).orderedInsert _ a).filter _ = _
      rw [filter_key_orderedInsert]
      by_cases ha : rowKey a = v
      · simpa [List.filter_cons, ha] using ih
      · simpa [List.filter_cons, ha] using ih

/-- C3: the sort of line 110 is a descending sort on the to_float-coerced
DPS cell, it is stable — the rows holding any fixed numeric DPS value
appear in the output exactly as they appear in the input — it is a
permutation of the input, and the spec's example sorts
`["10", "30", "20"]` to `30, 20, 10`. -/
theorem C3_sort_descending_stable :
    (∀ rows : List (List PyVal),
      (rowsSortDesc rows).Sorted (fun a b => rowKey b ≤ rowKey a)) ∧
    (∀ (rows : List (List PyVal)) (v : ℚ),
      (rowsSortDesc rows).filter (fun r => decide (rowKey r = v)) =
        rows.filter (fun r => decide (rowKey r = v))) ∧
    (∀ rows : List (List PyVal), (rowsSortDesc rows).Perm rows) ∧
    rowsSortDesc [[.str "A", .str "X", .str "10"], [.str "B", .str "X", .str "30"],
        [.str "C", .str "X", .str "20"]] =
      [[.str "B", .str "X", .str "30"], [.str "C", .str "X", .str "20"],
        [.str "A", .str "X", .str "10"]] := by
  haveI : IsTotal (List PyVal) (fun a b => rowKey b ≤ rowKey a) :=
    ⟨fun a b => le_total (rowKey b) (rowKey a)⟩
  haveI : IsTrans (List PyVal) (fun a b => rowKey b ≤ rowKey a) :=
    ⟨fun _ _ _ hab hbc => le_trans hbc hab⟩
  exact ⟨fun rows => List.sorted_insertionSort _ rows,
    filter_key_rowsSortDesc,
    fun rows => List.perm_insertionSort _ rows,
    rfl⟩

/-- C5: after the descending sort, a positive top-N keeps exactly the
first N sorted rows — `min(N, number of rows)` of them, the N highest by
numeric DPS — and a top-N of 0 disables truncation entirely. -/
theorem C5_topN_truncation (rows : List (List PyVal)) (n : ℤ) (hn : 0 < n) :
    applyTop n (rowsSortDesc rows) = (rowsSortDesc rows).take n.toNat ∧
    (applyTop n (rowsSortDesc rows)).length = min n.toNat rows.length ∧
    applyTop 0 (rowsSortDesc rows) = rowsSortDesc rows := by
  have hlen : (rowsSortDesc rows).length = rows.length :=
    (List.perm_insertionSort _ rows).length_eq
  have hne : n ≠ 0 := ne_of_gt hn
  refine ⟨?_, ?_, by simp [applyTop]⟩
  · simp [applyTop, hne, pySlice, le_of_lt hn]
  · simp [applyTop, hne, pySlice, le_of_lt hn, List.length_take, hlen]

/-- C5 witness: top-N = 3 on four tied rows keeps the first three. -/
theorem C5_topN_truncation_witness :
    applyTop 3 (rowsSortDesc [[PyVal.str "a"], [PyVal.str "b"], [PyVal.str "c"],
        [PyVal.str "d"]]) =
      (rowsSortDesc [[PyVal.str "a"], [PyVal.str "b"], [PyVal.str "c"],
        [PyVal.str "d"]]).take (3 : ℤ).toNat ∧
    (applyTop 3 (rowsSortDesc [[PyVal.str "a"], [PyVal.str "b"], [PyVal.str "c"],
        [PyVal.str "d"]])).length =
      min (3 : ℤ).toNat [[PyVal.str "a"], [PyVal.str "b"], [PyVal.str "c"],
        [PyVal.str "d"]].length ∧
    applyTop 0 (rowsSortDesc [[PyVal.str "a"], [PyVal.str "b"], [PyVal.str "c"],
        [PyVal.str "d"]]) =
      rowsSortDesc [[PyVal.str "a"], [PyVal.str "b"], [PyVal.str "c"], [PyVal.str "d"]] :=
  C5_topN_truncation [[PyVal.str "a"], [PyVal.str "b"], [PyVal.str "c"], [PyVal.str "d"]]
    3 (by norm_num)

/-- C6 counterexample: `--top` left unset means the argparse default 8,
not 0 — with ten rows, the unset default renders 8 rows, while an
explicit 0 renders all 10, so unset and 0 do NOT behave the same and
unset display is not unlimited. -/
theorem C6_counterexample :
    default_args.top = 8 ∧
    (applyTop default_args.top (List.replicate 10 [PyVal.str "p"])).length = 8 ∧
    (List.replicate 10 [PyVal.str "p"]).length = 10 ∧
    (applyTop default_args.top (List.replicate 10 [PyVal.str "p"]) =
      applyTop 0 (List.replicate 10 [PyVal.str "p"])) = False := by
  refine ⟨rfl, by rfl, by rfl, eq_false fun h => ?_⟩
  have h2 := congrArg List.length h
  rw [show (applyTop default_args.top (List.replicate 10 [PyVal.str "p"])).length = 8
      from rfl,
    show (applyTop 0 (List.replicate 10 [PyVal.str "p"])).length = 10 from rfl] at h2
  exact absurd h2 (by decide)

/-- C6 (amended): when `--top` is not supplied it defaults to 8, so the
table is truncated to the first 8 rows; only an explicit top-N of 0
disables truncation. -/
theorem C6_default_top_is_8 :
    default_args.top = 8 ∧
    (∀ rows : List (List PyVal), applyTop default_args.top rows = rows.take 8) ∧
    (∀ rows : List (List PyVal), applyTop 0 rows = rows) := by
  refine ⟨rfl, fun rows => ?_, fun rows => by simp [applyTop]⟩
  show applyTop 8 rows = rows.take 8
  norm_num [applyTop, pySlice]
  rfl

/-- C7 counterexample: the base-mode header list is not
`Name, Job, ENCDPS, Crit%, DH%, Deaths`. -/
theorem C7_counterexample :
    (main_headers = ["Name", "Job", "ENCDPS", "Crit%", "DH%", "Deaths"]) = False :=
  eq_false (by decide)

/-- C7 (amended): the rendered leaderboard table has exactly the columns
Name, Job, ENCDPS, Damage, Crit%, DH%, Deaths, in that order (the source
also renders a Damage column between ENCDPS and Crit%), and these are
the column labels of the rendered header and separator lines. -/
theorem C7_base_columns :
    main_headers = ["Name", "Job", "ENCDPS", "Damage", "Crit%", "DH%", "Deaths"] ∧
    formatLines [] main_headers =
      ["Name | Job | ENCDPS | Damage | Crit% | DH% | Deaths",
       "-----+-----+--------+--------+-------+-----+-------"] :=
  ⟨rfl, rfl⟩

theorem string_length_mk (cs : List Char) : (String.mk cs).length = cs.length := rfl

theorem length_updateColw (colw : List ℕ) (r : List PyVal) :
    (updateColw colw r).length = colw.length := by
  simp [updateColw]
  omega

theorem length_foldl_updateColw (rows : List (List PyVal)) (base : List ℕ) :
    (rows.foldl updateColw base).length = base.length := by
  induction rows generalizing base with
  | nil => rfl
  | cons r rows ih => simp [List.foldl_cons, ih, length_updateColw]

theorem length_colWidths (headers : List String) (rows : List (List PyVal)) :
    (colWidths headers rows).length = headers.length := by
  simp [colWidths, length_foldl_updateColw]

theorem getD_updateColw (colw : List ℕ) (r : List PyVal) (i : ℕ)
    (hlen : r.length = colw.length) (hi : i < colw.length) :
    (updateColw colw r).getD i 0 =
      max (colw.getD i 0) (pyStr (r.getD i (.str ""))).length := by
  have hdrop : colw.drop r.length = [] := by rw [hlen]; exact List.drop_length colw
  have hzl : (List.zipWith max colw (r.map (fun c => (pyStr c).length))).length
      = colw.length := by simp [hlen]
  have hi2 : i < r.length := by omega
  rw [updateColw, hdrop, List.append_nil]
  rw [List.getD_eq_getElem _ 0 (by omega), List.getD_eq_getElem _ 0 hi,
    List.getD_eq_getElem _ _ hi2]
  simp

theorem getD_foldl_updateColw (rows : List (List PyVal)) (base : List ℕ) (i : ℕ)
    (h : ∀ r ∈ rows, r.length = base.length) (hi : i < base.length) :
    (rows.foldl updateColw base).getD i 0 =
      (rows.map (fun r => (pyStr (r.getD i (.str ""))).length)).foldl max
        (base.getD i 0) := by
  induction rows generalizing base with
  | nil => rfl
  | cons r rows ih =>
      have h1 : r.length = base.length := h r (List.mem_cons_self r rows)
      have hbase2 : (updateColw base r).length = base.length := length_updateColw base r
      rw [List.foldl_cons, List.map_cons, List.foldl_cons,
        ih (updateColw base r)
          (fun r2 hr2 => by rw [hbase2]; exact h r2 (List.mem_cons_of_mem _ hr2))
          (by omega),
        getD_updateColw base r i h1 hi]

theorem colWidths_getD_eq_spec (headers : List String) (rows : List (List PyVal))
    (i : ℕ) (h : ∀ r ∈ rows, r.length = headers.length) (hi : i < headers.length) :
    (colWidths headers rows).getD i 0 = spec_colWidth headers rows i := by
  have hlen : (headers.map String.length).length = headers.length := by simp
  rw [colWidths, getD_foldl_updateColw rows (headers.map String.length) i
      (fun r hr => by rw [hlen]; exact h r hr) (by omega)]
  unfold spec_colWidth
  congr 1
  rw [List.getD_eq_getElem _ 0 (by simpa using hi), List.getD_eq_getElem _ "" hi]
  simp

theorem getD_range_map (f : ℕ → ℕ) (n i : ℕ) (hi : i < n) :
    ((List.range n).map f).getD i 0 = f i := by
  rw [List.getD_eq_getElem _ 0 (by simpa using hi)]
  simp

theorem range_map_getD (l : List ℕ) :
    (List.range l.length).map (fun i => l.getD i 0) = l := by
  apply List.ext_getElem
  · simp
  · intro i h1 h2
    simp only [List.getElem_map, List.getElem_range]
    exact List.getD_eq_getElem l 0 h2

theorem zipWith_ljust_eq_range_map (hs : List String) (w : List ℕ)
    (hw : w.length = hs.length) :
    List.zipWith ljust hs w =
      (List.range hs.length).map (fun i => ljust (hs.getD i "") (w.getD i 0)) := by
  apply List.ext_getElem
  · simp [hw]
  · intro i h1 h2
    have hi : i < hs.length := by simp [hw] at h1; omega
    have hiw : i < w.length := by omega
    simp only [List.getElem_zipWith, List.getElem_map, List.getElem_range]
    rw [List.getD_eq_getElem _ "" hi, List.getD_eq_getElem _ 0 hiw]

theorem colWidths_eq_spec (headers : List String) (rows : List (List PyVal))
    (h : ∀ r ∈ rows, r.length = headers.length) :
    colWidths headers rows =
      (List.range headers.length).map (spec_colWidth headers rows) := by
  apply List.ext_getElem
  · simp [length_colWidths]
  · intro i h1 h2
    have hi : i < headers.length := by simpa [length_colWidths] using h1
    rw [← List.getD_eq_getElem _ 0 h1, colWidths_getD_eq_spec headers rows i h hi]
    simp

/-- C8: `format_table` computes each column's width independently as the
maximum of the header label's length and every cell's string length in
that column, and renders a header row, a `-+-`-joined dash separator
row, and one `" | "`-joined, left-justified line per record — i.e. it
coincides with the table the spec describes, for every header list and
every list of rows with one cell per header. -/
theorem C8_format_table_refines_spec (headers : List String)
    (rows : List (List PyVal)) (h : ∀ r ∈ rows, r.length = headers.length) :
    format_table rows headers = spec_format_table rows headers := by
  have hw := colWidths_eq_spec headers rows h
  have hn : ((List.range headers.length).map (spec_colWidth headers rows)).length
      = headers.length := by simp
  unfold format_table formatLines spec_format_table dataLine
  rw [hw]
  refine congrArg (joinSep "\n") ?_
  congr 1
  · rw [zipWith_ljust_eq_range_map headers _ hn]
    refine congrArg (joinSep " | ") (List.map_congr_left ?_)
    intro i hi
    rw [getD_range_map _ _ _ (List.mem_range.mp hi)]
  congr 1
  · rw [List.map_map]
    rfl
  · refine List.map_congr_left ?_
    intro r hr
    refine congrArg (joinSep " | ") (List.map_congr_left ?_)
    intro i hi
    rw [getD_range_map _ _ _ (List.mem_range.mp hi)]

/-- C8 witness: the refinement applied at the spec's §8 example table. -/
theorem C8_format_table_witness :
    format_table [[PyVal.str "Alice", PyVal.str "12.3"], [PyVal.str "Bob", PyVal.str "5"]]
        ["Name", "DPS"] =
      spec_format_table [[PyVal.str "Alice", PyVal.str "12.3"],
        [PyVal.str "Bob", PyVal.str "5"]] ["Name", "DPS"] :=
  C8_format_table_refines_spec ["Name", "DPS"]
    [[PyVal.str "Alice", PyVal.str "12.3"], [PyVal.str "Bob", PyVal.str "5"]]
    (by intro r hr; fin_cases hr <;> rfl)

theorem ljust_length (s : String) (w : ℕ) : (ljust s w).length = max w s.length := by
  simp only [ljust, String.length_append, string_length_mk, List.length_replicate]
  omega

theorem joinSep_length (sep : String) (xs : List String) :
    (joinSep sep xs).length =
      (xs.map String.length).sum + sep.length * (xs.length - 1) := by
  induction xs with
  | nil => simp [joinSep]
  | cons x xs ih =>
      cases xs with
      | nil => simp [joinSep]
      | cons y ys =>
          rw [show joinSep sep (x :: y :: ys) = x ++ sep ++ joinSep sep (y :: ys)
            from rfl]
          simp only [String.length_append, ih, List.map_cons, List.sum_cons,
            List.length_cons, Nat.add_sub_cancel]
          rw [Nat.mul_succ]
          ring

theorem le_foldl_max (b : ℕ) (l : List ℕ) : b ≤ l.foldl max b := by
  induction l generalizing b with
  | nil => exact le_refl b
  | cons x l ih => exact le_trans (le_max_left b x) (ih (max b x))

theorem elem_le_foldl_max (b : ℕ) (l : List ℕ) (x : ℕ) (hx : x ∈ l) :
    x ≤ l.foldl max b := by
  induction l generalizing b with
  | nil => cases hx
  | cons y l ih =>
      rcases List.mem_cons.mp hx with rfl | hx2
      · exact le_trans (le_max_right b x) (le_foldl_max (max b x) l)
      · exact ih (max b y) hx2

theorem header_le_spec_colWidth (headers : List String) (rows : List (List PyVal))
    (i : ℕ) : (headers.getD i "").length ≤ spec_colWidth headers rows i :=
  le_foldl_max _ _

theorem cell_le_spec_colWidth (headers : List String) (rows : List (List PyVal))
    (r : List PyVal) (i : ℕ) (hr : r ∈ rows) :
    (pyStr (r.getD i (.str ""))).length ≤ spec_colWidth headers rows i :=
  elem_le_foldl_max _ _ _ (List.mem_map_of_mem _ hr)

/-- C10: when every row has one cell per header, every output line of
`format_table` — header, separator, and each data line — has the same
length: the sum of the column widths plus 3 per gap between the
columns. -/
theorem C10_uniform_line_length (headers : List String) (rows : List (List PyVal))
    (h : ∀ r ∈ rows, r.length = headers.length) :
    ∀ line ∈ formatLines rows headers,
      line.length = (colWidths headers rows).sum + 3 * (headers.length - 1) := by
  intro line hline
  have hw := colWidths_eq_spec headers rows h
  have hcw : (colWidths headers rows).length = headers.length :=
    length_colWidths headers rows
  have hsum : (colWidths headers rows).sum =
      ((List.range headers.length).map (spec_colWidth headers rows)).sum := by
    rw [hw]
  have hgetd : ∀ i < headers.length,
      (colWidths headers rows).getD i 0 = spec_colWidth headers rows i :=
    fun i hi => colWidths_getD_eq_spec headers rows i h hi
  rcases List.mem_cons.mp hline with rfl | hline2
  · -- header line
    rw [zipWith_ljust_eq_range_map headers _ (by omega), joinSep_length]
    have hpieces : ((List.range headers.length).map
          (fun i => ljust (headers.getD i "")
            ((colWidths headers rows).getD i 0))).map String.length =
        (List.range headers.length).map (spec_colWidth headers rows) := by
      rw [List.map_map]
      refine List.map_congr_left ?_
      intro i hi
      have hi2 := List.mem_range.mp hi
      show (ljust (headers.getD i "") ((colWidths headers rows).getD i 0)).length = _
      rw [ljust_length, hgetd i hi2]
      exact max_eq_left (header_le_spec_colWidth headers rows i)
    rw [hpieces, ← hsum]
    have h3 : (" | " : String).length = 3 := rfl
    simp [h3]
  rcases List.mem_cons.mp hline2 with rfl | hline3
  · -- separator line
    rw [joinSep_length]
    have hpieces : ((colWidths headers rows).map
          (fun w => String.mk (List.replicate w '-'))).map String.length =
        colWidths headers rows := by
      rw [List.map_map]
      have hpt : ∀ w ∈ colWidths headers rows,
          (String.length ∘ fun w => String.mk (List.replicate w '-')) w = id w := by
        intro w _
        show (String.mk (List.replicate w '-')).length = w
        rw [string_length_mk, List.length_replicate]
      rw [List.map_congr_left hpt, List.map_id]
    rw [hpieces]
    have h3 : ("-+-" : String).length = 3 := rfl
    simp [h3, hcw]
  · -- data line
    obtain ⟨r, hr, rfl⟩ := List.mem_map.mp hline3
    unfold dataLine
    rw [joinSep_length]
    have hpieces : ((List.range headers.length).map
          (fun i => ljust (pyStr (r.getD i (.str "")))
            ((colWidths headers rows).getD i 0))).map String.length =
        (List.range headers.length).map (spec_colWidth headers rows) := by
      rw [List.map_map]
      refine List.map_congr_left ?_
      intro i hi
      have hi2 := List.mem_range.mp hi
      show (ljust (pyStr (r.getD i (.str "")))
        ((colWidths headers rows).getD i 0)).length = _
      rw [ljust_length, hgetd i hi2]
      exact max_eq_left (cell_le_spec_colWidth headers rows r i hr)
    rw [hpieces, ← hsum]
    have h3 : (" | " : String).length = 3 := rfl
    simp [h3]

/-- C10 witness: the uniform-length property applied at the spec's §8
example, picking the header line (each line has width 5 + 4 + 3). -/
theorem C10_uniform_line_length_witness :
    ("Name  | DPS " : String).length =
      (colWidths ["Name", "DPS"] [[PyVal.str "Alice", PyVal.str "12.3"],
        [PyVal.str "Bob", PyVal.str "5"]]).sum +
      3 * ((["Name", "DPS"] : List String).length - 1) :=
  C10_uniform_line_length ["Name", "DPS"]
    [[PyVal.str "Alice", PyVal.str "12.3"], [PyVal.str "Bob", PyVal.str "5"]]
    (by intro r hr; fin_cases hr <;> rfl)
    "Name  | DPS "
    (by
      rw [show formatLines [[PyVal.str "Alice", PyVal.str "12.3"],
          [PyVal.str "Bob", PyVal.str "5"]] ["Name", "DPS"] =
        ["Name  | DPS ", "------+-----", "Alice | 12.3", "Bob   | 5   "] from rfl]
      exact List.mem_cons_self _ _)

/-- C4 counterexample: a `CombatData` event in which one combatant's
stats value is not a mapping (`"Bob": 5`).  The claim says Bob is
silently dropped with no row emitted and the loop continues; in the
source the iteration raises an uncaught exception instead — the step
crashes (`crashed = true`), no table line is printed at all (only the
already-printed encounter header line), and the loop terminates. -/
theorem C4_counterexample :
    handleMsg (fun _ => "") default_args (.json (PyVal.dict
        [("type", .str "CombatData"),
         ("Combatant", .dict [("Alice", .dict [("encdps", .str "10")]),
           ("Bob", .int 5)])])) =
      ⟨["\n=== Encounter:   Zone:   Duration: ?  ENCDPS: ?  Damage: ? ==="],
        false, true⟩ := by
  rfl

/-- C4 (amended): per-combatant field extraction never throws for
missing or unexpectedly-cased keys — when every combatant's stats value
is a string-keyed mapping, the row loop succeeds and emits exactly one
row per combatant, and a combatant whose stats mapping has no matching
keys at all still yields a row made of the declared defaults; but a
combatant whose stats value is NOT a mapping makes the whole iteration
raise (an uncaught exception that terminates the process), rather than
being silently dropped. -/
theorem C4_extraction_totality (comb : List (String × PyVal))
    (h : ∀ kv ∈ comb, ∃ fs, kv.2 = PyVal.dict fs) :
    buildRows comb =
      .ok (comb.map (fun kv => combatantRow kv.1 (dictFields kv.2))) ∧
    (∀ pname, combatantRow pname [] =
      [.str pname, .str "", .str "0", .str "0", .str "", .str "", .str "0"]) := by
  constructor
  · induction comb with
    | nil => rfl
    | cons kv rest ih =>
        obtain ⟨fs, hfs⟩ := h kv (List.mem_cons_self kv rest)
        obtain ⟨p, stats⟩ := kv
        dsimp only at hfs
        subst hfs
        simp [buildRows, dictFields, Except.map,
          ih (fun kv2 hkv2 => h kv2 (List.mem_cons_of_mem _ hkv2))]
  · intro pname
    rfl

/-- C4 witness: the amended totality applied to a concrete combatant
mapping — one combatant with stats, one with an empty stats dict. -/
theorem C4_extraction_totality_witness :
    buildRows [("Alice", PyVal.dict [("encdps", PyVal.str "900")]),
        ("Bob", PyVal.dict [])] =
      .ok ([("Alice", PyVal.dict [("encdps", PyVal.str "900")]),
        ("Bob", PyVal.dict [])].map
          (fun kv => combatantRow kv.1 (dictFields kv.2))) ∧
    combatantRow "X" [] =
      [.str "X", .str "", .str "0", .str "0", .str "", .str "", .str "0"] :=
  ⟨(C4_extraction_totality
      [("Alice", PyVal.dict [("encdps", PyVal.str "900")]), ("Bob", PyVal.dict [])]
      (by intro kv hkv; fin_cases hkv <;> exact ⟨_, rfl⟩)).1,
   (C4_extraction_totality
      [("Alice", PyVal.dict [("encdps", PyVal.str "900")]), ("Bob", PyVal.dict [])]
      (by intro kv hkv; fin_cases hkv <;> exact ⟨_, rfl⟩)).2 "X"⟩

/-- C9: a text frame that JSON decoding rejects makes the loop print a
diagnostic holding at most the first 200 characters of the raw message
and continue (no stop, no crash); and after such a frame, a well-formed
`CombatData` event (the spec §8 example) is still processed normally —
the encounter header line is printed and Bob's row (DPS 1600) precedes
Alice's (DPS 900) in the rendered table. -/
theorem C9_malformed_input_tolerated :
    (∀ (dumps : PyVal → String) (args : Args) (raw : String),
      handleMsg dumps args (.notJson raw) =
        ⟨["[Non-JSON] " ++ strSlice raw 200], false, false⟩) ∧
    (∀ raw : String, (strSlice raw 200).length ≤ 200) ∧
    (∀ dumps : PyVal → String,
      runLoop dumps default_args [.notJson "not json", .json goodCombatEvent] =
        ⟨["[Non-JSON] not json",
          "\n=== Encounter: Training Dummy  Zone:   Duration: 1:23  ENCDPS: 1500  Damage: ? ===",
          format_table
            [[.str "Bob", .str "DRK", .str "1600", .str "0", .str "", .str "", .str "0"],
             [.str "Alice", .str "WHM", .str "900", .str "0", .str "", .str "", .str "0"]]
            main_headers],
          false⟩) := by
  refine ⟨fun dumps args raw => rfl, fun raw => ?_, fun dumps => rfl⟩
  rw [strSlice, string_length_mk]
  exact le_trans (List.length_take_le 200 _) (le_refl 200)
